import Mathlib

/-!
Shallow embedding of `src/chained/functions/lambded.py`.

A `LambdaExpr` is an immutable tuple of tokens; `__str__` and `__repr__`
render the expression by joining the `str()` images of all tokens with the
empty separator.  We model the
token tuple as a `List String`, where each element is the `str()` image of
the corresponding Python token (tokens that are not strings, such as the
`None` precision stored by `__round__` or a literal right operand stored by
`_collapse`, are represented by their `str()` text, which is exactly what
rendering produces).  The process-wide registry `_registered_vars` is a
`set` of names; we model it as a `List String` used with set semantics
(membership, insertion at the front).
-/

/-- Lexicographic comparison of character lists by code point.  Models the
string comparison used by Python `sorted` on `str` values. -/
def charListLe : List Char → List Char → Bool
  | [], _ => true
  | _ :: _, [] => false
  | a :: as, b :: bs => if a < b then true else if b < a then false else charListLe as bs

/-- Code-point lexicographic order on strings, the order Python `sorted`
uses for `str` keys. -/
def strLe (a b : String) : Bool := charListLe a.data b.data

/-- Models `LambdaExpr.__str__` and `LambdaExpr.__repr__`: the empty-string
join over the `str()` images of the tokens, i.e. the concatenation of all
token texts in order. -/
def render : List String → String
  | [] => ""
  | s :: rest => s ++ render rest

/-- Models `LambdaExpr._get_args`:
`sorted(set(self._tokens) & _registered_vars)` — the sorted set of
registered variable names that occur verbatim among the token fragments. -/
def _get_args (tokens registered : List String) : List String :=
  List.insertionSort (fun a b => strLe a b = true)
    ((tokens.filter (fun t => decide (t ∈ registered))).dedup)

/-- The source text assembled by `LambdaExpr._eval`: the word `lambda`, a
space, the argument names joined by commas, a colon, and the rendered
expression body. -/
def lambdaSource (tokens registered : List String) : String :=
  "lambda " ++ String.intercalate "," (_get_args tokens registered) ++ ":" ++ render tokens

/-- The compiled callable produced by `eval` inside `LambdaExpr._eval`,
identified by its formal parameter list and its body text (the Python-side
behaviour of the evaluated lambda is outside the embedding; two equal
sources evaluate to callables with identical behaviour). -/
structure Compiled where
  params : List String
  body : String
deriving DecidableEq

/-- The pure part of `LambdaExpr._eval`: the compiled callable obtained from
the token list and the registry at compilation time. -/
def _eval_fn (tokens registered : List String) : Compiled :=
  ⟨_get_args tokens registered, render tokens⟩

/-- The mutable state of a `LambdaExpr` instance: its immutable `_tokens`
plus the `_lambda` slot, which is `none` while it still holds the initial
`partial(_call_monkey_patcher, self)` and `some f` once `_eval` has stored
the compiled callable `f`. -/
structure LambdaExprState where
  tokens : List String
  lambdaSlot : Option Compiled
deriving DecidableEq

/-- Models `LambdaExpr.__init__`: stores the tokens and points `_lambda` at
the monkey patcher (no compilation yet). -/
def LambdaExpr_init (tokens : List String) : LambdaExprState := ⟨tokens, none⟩

/-- Models one invocation of `LambdaExpr.__call__`: if `_lambda` is still
the monkey patcher, `_eval` compiles the source and overwrites `_lambda`;
otherwise the memoized callable is used directly.  Returns the callable
used for this invocation, the updated state, and whether compilation was
triggered. -/
def LambdaExpr_call (s : LambdaExprState) (registered : List String) :
    Compiled × LambdaExprState × Bool :=
  match s.lambdaSlot with
  | some f => (f, s, false)
  | none =>
      let f := _eval_fn s.tokens registered
      (f, ⟨s.tokens, some f⟩, true)

/-- Number of compilations triggered by a sequence of invocations of one
builder instance (each invocation may observe a different registry). -/
def compileCount (s : LambdaExprState) (regs : List (List String)) : Nat :=
  match regs with
  | [] => 0
  | r :: rest =>
      (if (LambdaExpr_call s r).2.2 then 1 else 0) + compileCount (LambdaExpr_call s r).2.1 rest

/-- A right operand of a binary combinator: either another builder (spliced
in by its tokens) or any other Python value (spliced in as a single token,
represented here by its `str()` text). -/
inductive Operand where
  | expr (tokens : List String)
  | lit (text : String)
deriving DecidableEq

/-- Models `LambdaExpr._collapse(right, *inter_tokens)`: wraps the current
tokens in parentheses, appends the operator tokens, then splices the right
operand (verbatim tokens for a builder, a single token otherwise). -/
def _collapse (self : List String) (right : Operand) (inter_tokens : List String) :
    List String :=
  match right with
  | .expr ts => ["("] ++ self ++ [")"] ++ inter_tokens ++ ts
  | .lit text => ["("] ++ self ++ [")"] ++ inter_tokens ++ [text]

/-- The infix operator tokens of the binary combinators that dispatch to
`_collapse`: `__eq__`, `__ne__`, `__lt__`, `__gt__`, `__le__`, `__ge__`,
`__add__`, `__sub__`, `__mul__`, `__floordiv__`, `__div__`, `__mod__`,
`__pow__`, `__matmul__`, `__lshift__`, `__rshift__`, `__and__`, `__or__`,
`__xor__`. -/
def infixOps : List String :=
  ["==", "!=", "<", ">", "<=", ">=", "+", "-", "*", "//", "/", "%", "**", "@",
   "<<", ">>", "&", "|", "^"]

/-- Models `LambdaExpr.__divmod__`: returns a new builder whose tokens are
the fragment `divmod(`, then the old tokens, then `)`, never inspecting
`other`. -/
def __divmod__ (self : List String) (other : Operand) : List String :=
  ["divmod("] ++ self ++ [")"]

/-- The precision argument of `LambdaExpr.__round__`: absent (Python passes
`None`), an integer, a raw string, or another builder. -/
inductive RoundArg where
  | defaultNone
  | int (k : Int)
  | str (s : String)
  | expr (tokens : List String)
deriving DecidableEq

/-- Models `LambdaExpr.__round__`: `n` becomes `n._tokens` when it is a
builder and the one-element tuple `(n,)` otherwise, and the result is a new
builder with the fragment `round(`, the old tokens, a comma, the precision
tokens, and `)`.  A stored `None` token renders as the text `None`; a
stored integer renders as its decimal text. -/
def __round__ (self : List String) (n : RoundArg) : List String :=
  let ntoks : List String :=
    match n with
    | .defaultNone => ["None"]
    | .int k => [toString k]
    | .str s => [s]
    | .expr ts => ts
  ["round("] ++ self ++ [","] ++ ntoks ++ [")"]

/-- A Python value passed to the call combinator `LambdaExpr._`: either a
`str`, or a value of any other type together with its display text. -/
inductive PyObj where
  | str (s : String)
  | nonStr (text : String)
deriving DecidableEq

/-- Whether the value is a Python `str` (the check performed by the
formatters inside `LambdaExpr._`). -/
def PyObj.isStr : PyObj → Bool
  | .str _ => true
  | .nonStr _ => false

/-- Tail of `args_formatter` inside `LambdaExpr._`: every further
positional argument must be a `str` and is yielded after a comma token. -/
def argsRest : List PyObj → Except Unit (List String)
  | [] => .ok []
  | .nonStr _ :: _ => .error ()
  | .str s :: rest => (argsRest rest).map (fun t => "," :: s :: t)

/-- Models `args_formatter` inside `LambdaExpr._`: the first positional
argument must be a `str` and is yielded bare; a non-`str` raises
`TypeError` while the generator is being consumed. -/
def argsFormatter : List PyObj → Except Unit (List String)
  | [] => .ok []
  | .nonStr _ :: _ => .error ()
  | .str s :: rest => (argsRest rest).map (fun t => s :: t)

/-- Tail of `kwargs_formatter` inside `LambdaExpr._`: every further keyword
argument value must be a `str`. -/
def kwargsRest : List (String × PyObj) → Except Unit (List String)
  | [] => .ok []
  | (_, .nonStr _) :: _ => .error ()
  | (k, .str v) :: rest => (kwargsRest rest).map (fun t => ("," ++ k ++ "=") :: v :: t)

/-- Models `kwargs_formatter` inside `LambdaExpr._`: the first keyword
argument is preceded by a comma exactly when a positional argument was
already yielded (`need_kwarg_comma`); every value must be a `str`. -/
def kwargsFormatter (needComma : Bool) : List (String × PyObj) → Except Unit (List String)
  | [] => .ok []
  | (_, .nonStr _) :: _ => .error ()
  | (k, .str v) :: rest =>
      (kwargsRest rest).map
        (fun t => (if needComma then ["," , k ++ "=", v] else [k ++ "=", v]) ++ t)

/-- Models the call combinator `LambdaExpr._`: both formatter generators
are fully consumed by the `*` unpacking inside the `LambdaExpr(...)`
constructor call, so a `TypeError` from either of them is raised during
combinator construction, before any builder exists.  On success the new
builder wraps the receiver in parentheses and appends the rendered argument
list. -/
def LambdaExpr_callCombinator (self : List String) (args : List PyObj)
    (kwargs : List (String × PyObj)) : Except Unit (List String) := do
  let aToks ← argsFormatter args
  let kToks ← kwargsFormatter (!args.isEmpty) kwargs
  return ["("] ++ self ++ [")("] ++ aToks ++ kToks ++ [")"]

/-- The Python 3 keyword list, `keyword.kwlist`, used by
`keyword.iskeyword`. -/
def kwlist : List String :=
  ["False", "None", "True", "and", "as", "assert", "async", "await", "break",
   "class", "continue", "def", "del", "elif", "else", "except", "finally",
   "for", "from", "global", "if", "import", "in", "is", "lambda", "nonlocal",
   "not", "or", "pass", "raise", "return", "try", "while", "with", "yield"]

/-- Models `keyword.iskeyword`. -/
def iskeyword (s : String) : Bool := decide (s ∈ kwlist)

/-- First-character test of `str.isidentifier` (ASCII fragment: a letter or
an underscore; the registry and the claims only involve ASCII names). -/
def isIdentStart (c : Char) : Bool := c.isAlpha || c = '_'

/-- Continuation-character test of `str.isidentifier` (ASCII fragment: a
letter, a digit or an underscore). -/
def isIdentCont (c : Char) : Bool := c.isAlphanum || c = '_'

/-- Models `str.isidentifier` on ASCII names: nonempty, starting with a
letter or underscore, continuing with letters, digits or underscores. -/
def isidentifier (s : String) : Bool :=
  match s.data with
  | [] => false
  | c :: cs => isIdentStart c && cs.all isIdentCont

/-- The two `NameError` raise sites of `LambdaVar.__init__`, distinguished
by their messages. -/
inductive NameErr where
  | alreadyCreated
  | notValidIdentifier
deriving DecidableEq

/-- Models `LambdaVar.__init__` as a function of the registry
`_registered_vars`: first the conflict check, then the identifier/keyword
check, and only on success the registration of the name and the creation of
the single-fragment token tuple.  Returns the outcome together with the
registry after the call. -/
def LambdaVar_init (name : String) (registered : List String) :
    Except NameErr (List String) × List String :=
  if name ∈ registered then (.error .alreadyCreated, registered)
  else if !(isidentifier name) || iskeyword name then (.error .notValidIdentifier, registered)
  else (.ok [name], name :: registered)

/-- The state a variadic-marker class closes over: its `instance` class
attribute (the cached singleton, identified by its token tuple) and the
registry. -/
structure SingletonClassState where
  instAttr : Option (List String)
  registered : List String
deriving DecidableEq

/-- Models `LambdaArgs.__new__`: on first construction the instance is
created with the single token `*args`, cached in the class attribute, and
the name `*args` is registered; afterwards the cached instance is returned
unchanged. -/
def LambdaArgs_new (s : SingletonClassState) : List String × SingletonClassState :=
  match s.instAttr with
  | none => (["*args"], ⟨some ["*args"], "*args" :: s.registered⟩)
  | some t => (t, s)

/-- Models `LambdaKwargs.__new__`: the same singleton protocol with the
single token `**kwargs` and registered name `**kwargs`. -/
def LambdaKwargs_new (s : SingletonClassState) : List String × SingletonClassState :=
  match s.instAttr with
  | none => (["**kwargs"], ⟨some ["**kwargs"], "**kwargs" :: s.registered⟩)
  | some t => (t, s)

/-! Helper lemmas about the string order used by `sorted`. -/

theorem charListLe_total (a b : List Char) : charListLe a b = true ∨ charListLe b a = true := by
  induction a generalizing b with
  | nil => left; rfl
  | cons x xs ih =>
    cases b with
    | nil => right; rfl
    | cons y ys =>
      rcases lt_trichotomy x y with h | h | h
      · left; simp [charListLe, h]
      · subst h; simpa [charListLe] using ih ys
      · right; simp [charListLe, h, lt_asymm h]

theorem charListLe_trans (a b c : List Char) (h₁ : charListLe a b = true)
    (h₂ : charListLe b c = true) : charListLe a c = true := by
  induction a generalizing b c with
  | nil => rfl
  | cons x xs ih =>
    cases b with
    | nil => simp [charListLe] at h₁
    | cons y ys =>
      cases c with
      | nil => simp [charListLe] at h₂
      | cons z zs =>
        simp only [charListLe] at h₁ h₂ ⊢
        rcases lt_trichotomy x y with hxy | hxy | hxy
        · rcases lt_trichotomy y z with hyz | hyz | hyz
          · simp [lt_trans hxy hyz]
          · subst hyz; simp [hxy]
          · simp [hxy, lt_asymm hxy] at h₁ ⊢
            simp [hyz, lt_asymm hyz] at h₂
        · subst hxy
          rcases lt_trichotomy x z with hxz | hxz | hxz
          · simp [hxz]
          · subst hxz
            simp [lt_irrefl] at h₁ h₂ ⊢
            exact ih _ _ h₁ h₂
          · simp [lt_irrefl] at h₁
            simp [hxz, lt_asymm hxz] at h₂
        · simp [hxy, lt_asymm hxy] at h₁

theorem charListLe_antisymm (a b : List Char) (h₁ : charListLe a b = true)
    (h₂ : charListLe b a = true) : a = b := by
  induction a generalizing b with
  | nil =>
    cases b with
    | nil => rfl
    | cons y ys => simp [charListLe] at h₂
  | cons x xs ih =>
    cases b with
    | nil => simp [charListLe] at h₁
    | cons y ys =>
      simp only [charListLe] at h₁ h₂
      rcases lt_trichotomy x y with hxy | hxy | hxy
      · simp [hxy, lt_asymm hxy] at h₂
      · subst hxy
        simp [lt_irrefl] at h₁ h₂
        rw [ih _ h₁ h₂]
      · simp [hxy, lt_asymm hxy] at h₁

instance : IsTrans String (fun a b => strLe a b = true) :=
  ⟨fun a b c h₁ h₂ => charListLe_trans a.data b.data c.data h₁ h₂⟩

instance : IsTotal String (fun a b => strLe a b = true) :=
  ⟨fun a b => charListLe_total a.data b.data⟩

instance : IsAntisymm String (fun a b => strLe a b = true) :=
  ⟨fun a b h₁ h₂ => String.ext (charListLe_antisymm a.data b.data h₁ h₂)⟩

/-! Helper lemmas about rendering. -/

theorem strAppend_assoc (a b c : String) : a ++ b ++ c = a ++ (b ++ c) :=
  String.ext (by simp [String.data_append, List.append_assoc])

theorem render_append (l₁ l₂ : List String) :
    render (l₁ ++ l₂) = render l₁ ++ render l₂ := by
  induction l₁ with
  | nil =>
    simp only [List.nil_append, render]
    rw [String.empty_append]
  | cons s rest ih =>
    simp only [List.cons_append, render, List.append_eq]
    rw [ih, strAppend_assoc]

theorem render_singleton (s : String) : render [s] = s := by
  simp only [render]
  exact String.append_empty s

/-! Helper lemmas about `_get_args`. -/

theorem get_args_perm (tokens registered : List String) :
    (_get_args tokens registered).Perm
      ((tokens.filter (fun t => decide (t ∈ registered))).dedup) :=
  List.perm_insertionSort _ _

theorem mem_get_args_iff (tokens registered : List String) (v : String) :
    v ∈ _get_args tokens registered ↔ v ∈ tokens ∧ v ∈ registered := by
  rw [(get_args_perm tokens registered).mem_iff, List.mem_dedup, List.mem_filter]
  simp

theorem get_args_sorted (tokens registered : List String) :
    List.Sorted (fun a b => strLe a b = true) (_get_args tokens registered) :=
  List.sorted_insertionSort _ _

theorem get_args_nodup (tokens registered : List String) :
    (_get_args tokens registered).Nodup :=
  ((get_args_perm tokens registered).nodup_iff).mpr (List.nodup_dedup _)

/-! Helper lemmas about the call combinator. -/

theorem argsRest_error (args : List PyObj) (h : ∃ a ∈ args, PyObj.isStr a = false) :
    argsRest args = .error () := by
  induction args with
  | nil => simp at h
  | cons a rest ih =>
    cases a with
    | nonStr t => rfl
    | str s =>
      obtain ⟨x, hx, hxs⟩ := h
      rcases List.mem_cons.mp hx with rfl | hx
      · simp [PyObj.isStr] at hxs
      · rw [argsRest, ih ⟨x, hx, hxs⟩]
        rfl

theorem argsFormatter_error (args : List PyObj) (h : ∃ a ∈ args, PyObj.isStr a = false) :
    argsFormatter args = .error () := by
  cases args with
  | nil => simp at h
  | cons a rest =>
    cases a with
    | nonStr t => rfl
    | str s =>
      obtain ⟨x, hx, hxs⟩ := h
      rcases List.mem_cons.mp hx with rfl | hx
      · simp [PyObj.isStr] at hxs
      · rw [argsFormatter, argsRest_error rest ⟨x, hx, hxs⟩]
        rfl

theorem kwargsRest_error (kwargs : List (String × PyObj))
    (h : ∃ kv ∈ kwargs, PyObj.isStr kv.2 = false) :
    kwargsRest kwargs = .error () := by
  induction kwargs with
  | nil => simp at h
  | cons kv rest ih =>
    obtain ⟨k, v⟩ := kv
    cases v with
    | nonStr t => rfl
    | str s =>
      obtain ⟨x, hx, hxs⟩ := h
      rcases List.mem_cons.mp hx with rfl | hx
      · simp [PyObj.isStr] at hxs
      · rw [kwargsRest, ih ⟨x, hx, hxs⟩]
        rfl

theorem kwargsFormatter_error (needComma : Bool) (kwargs : List (String × PyObj))
    (h : ∃ kv ∈ kwargs, PyObj.isStr kv.2 = false) :
    kwargsFormatter needComma kwargs = .error () := by
  cases kwargs with
  | nil => simp at h
  | cons kv rest =>
    obtain ⟨k, v⟩ := kv
    cases v with
    | nonStr t => rfl
    | str s =>
      obtain ⟨x, hx, hxs⟩ := h
      rcases List.mem_cons.mp hx with rfl | hx
      · simp [PyObj.isStr] at hxs
      · rw [kwargsFormatter, kwargsRest_error rest ⟨x, hx, hxs⟩]
        rfl

/-! Helper lemma about memoized invocation. -/

theorem compileCount_of_some (f : Compiled) (tokens : List String)
    (regs : List (List String)) :
    compileCount ⟨tokens, some f⟩ regs = 0 := by
  induction regs with
  | nil => rfl
  | cons r rest ih => simpa [compileCount, LambdaExpr_call] using ih

/-! Claim theorems. -/

/-- C1: the formal parameter list of the compiled function is exactly the
sorted (code-point lexicographic) set of registered variable names whose
text appears verbatim among the fragments of the builder; in particular,
when the registered names occurring among the fragments are exactly `x`
and `y`, the parameter list is `[x, y]`, regardless of the order in which
the variables were combined. -/
theorem C1_sorted_free_variable_params (tokens registered : List String) :
    (∀ v, v ∈ (_eval_fn tokens registered).params ↔ v ∈ tokens ∧ v ∈ registered)
    ∧ List.Sorted (fun a b => strLe a b = true) (_eval_fn tokens registered).params
    ∧ (_eval_fn tokens registered).params.Nodup
    ∧ (_eval_fn tokens registered).params = _get_args tokens registered
    ∧ ("x" ∈ tokens → "y" ∈ tokens → "x" ∈ registered → "y" ∈ registered →
        (∀ v, v ∈ registered → v ∈ tokens → v = "x" ∨ v = "y") →
        (_eval_fn tokens registered).params = ["x", "y"]) := by
  refine ⟨fun v => mem_get_args_iff tokens registered v, get_args_sorted tokens registered,
    get_args_nodup tokens registered, rfl, ?_⟩
  intro hx hy hrx hry honly
  show _get_args tokens registered = ["x", "y"]
  refine List.eq_of_perm_of_sorted ?_ (get_args_sorted tokens registered) (by decide)
  refine (List.perm_ext_iff_of_nodup (get_args_nodup tokens registered) (by decide)).mpr ?_
  intro v
  rw [mem_get_args_iff]
  constructor
  · rintro ⟨hvt, hvr⟩
    rcases honly v hvr hvt with rfl | rfl <;> simp
  · intro hv
    rcases List.mem_cons.mp hv with rfl | hv
    · exact ⟨hx, hrx⟩
    · rcases List.mem_singleton.mp hv with rfl
      exact ⟨hy, hry⟩

/-- C1 witness: a builder that combined `y` before `x` still compiles to
the parameter list `[x, y]`. -/
theorem C1_witness :
    (_eval_fn ["(", "y", ")", "+", "x"] ["x", "y"]).params = ["x", "y"] :=
  (C1_sorted_free_variable_params ["(", "y", ")", "+", "x"] ["x", "y"]).2.2.2.2
    (by decide) (by decide) (by decide) (by decide) (by decide)

/-- C2: rendering is compositional over every infix binary combinator that
dispatches to `_collapse`: the result renders as the left operand in
parentheses, the operator token, and then the right operand rendered (for
a builder) or its display text (for a literal). -/
theorem C2_render_compositional (a b : List String) (litText : String) (op : String)
    (hop : op ∈ infixOps) :
    render (_collapse a (.expr b) [op]) = "(" ++ render a ++ ")" ++ op ++ render b
    ∧ render (_collapse a (.lit litText) [op]) = "(" ++ render a ++ ")" ++ op ++ litText := by
  constructor <;> simp only [_collapse, render_append, render_singleton]

/-- C2 witness: the addition combinator at concrete operands. -/
theorem C2_witness :
    render (_collapse ["x"] (.expr ["y"]) ["+"]) = "(" ++ render ["x"] ++ ")" ++ "+" ++ render ["y"]
    ∧ render (_collapse ["x"] (.lit "3") ["+"]) = "(" ++ render ["x"] ++ ")" ++ "+" ++ "3" :=
  C2_render_compositional ["x"] ["y"] "3" "+" (by decide)

/-- C3 counterexample: the registered name `a` occurs only as a proper
substring of the fragment `ab` and never as a whole fragment, yet the
computed argument list of the compiled function is empty — the name is NOT
counted as present, contradicting the claim that it would still be
included. -/
theorem C3_counterexample :
    "ab" = "a" ++ "b"
    ∧ "a" ∉ (["(", "ab", ")"] : List String)
    ∧ _get_args ["(", "ab", ")"] ["a"] = []
    ∧ (_eval_fn ["(", "ab", ")"] ["a"]).params = [] := by decide

/-- C3 amended: free-variable detection is exact token membership — a
registered name that does not occur as a whole fragment (in particular one
occurring only as a proper substring of some fragment) is NOT counted as
present and is excluded from the formal parameter list. -/
theorem C3_amended_substring_not_counted (tokens registered : List String) (v : String)
    (h : v ∉ tokens) : v ∉ (_eval_fn tokens registered).params := by
  intro hv
  have hv2 : v ∈ _get_args tokens registered := hv
  exact h ((mem_get_args_iff tokens registered v).mp hv2).1

/-- C3 amended witness: the name occurring only inside `ab` is excluded. -/
theorem C3_amended_witness : "a" ∉ (_eval_fn ["(", "ab", ")"] ["a"]).params :=
  C3_amended_substring_not_counted ["(", "ab", ")"] ["a"] "a" (by decide)

/-- C4: constructing a placeholder with a valid, non-keyword, unregistered
name succeeds and registers the name; any later construction with the same
name (in any registry containing it) fails with the naming-conflict error
and leaves the registry unchanged, so the first placeholder and its
registry entry survive the failed attempt. -/
theorem C4_placeholder_registers_once (name : String) (registered : List String)
    (h1 : isidentifier name = true) (h2 : iskeyword name = false) (h3 : name ∉ registered) :
    (LambdaVar_init name registered).1 = .ok [name]
    ∧ (LambdaVar_init name registered).2 = name :: registered
    ∧ (∀ reg2 : List String, name ∈ reg2 →
        LambdaVar_init name reg2 = (.error .alreadyCreated, reg2))
    ∧ LambdaVar_init name ((LambdaVar_init name registered).2)
        = (.error .alreadyCreated, name :: registered) := by
  have hconf : ∀ reg2 : List String, name ∈ reg2 →
      LambdaVar_init name reg2 = (.error .alreadyCreated, reg2) := by
    intro reg2 hm
    simp [LambdaVar_init, hm]
  have hfirst : LambdaVar_init name registered = (.ok [name], name :: registered) := by
    simp [LambdaVar_init, h1, h2, h3]
  refine ⟨by rw [hfirst], by rw [hfirst], hconf, ?_⟩
  rw [hfirst]
  exact hconf (name :: registered) (List.mem_cons_self name registered)

/-- C4 witness: registering the name `x` in the empty registry and then
attempting it again. -/
theorem C4_witness :
    LambdaVar_init "x" ((LambdaVar_init "x" []).2) = (.error .alreadyCreated, "x" :: []) :=
  (C4_placeholder_registers_once "x" [] (by decide) (by decide) (by decide)).2.2.2

/-- C5: the first invocation of a freshly built expression triggers
compilation; a second invocation reuses the memoized compiled callable (the
same callable, with the state unchanged and no recompilation), and over any
sequence of invocations the builder compiles at most once. -/
theorem C5_invocation_memoized (tokens r1 r2 : List String) (regs : List (List String)) :
    (LambdaExpr_call (LambdaExpr_init tokens) r1).2.2 = true
    ∧ (LambdaExpr_call (LambdaExpr_call (LambdaExpr_init tokens) r1).2.1 r2).1
        = (LambdaExpr_call (LambdaExpr_init tokens) r1).1
    ∧ (LambdaExpr_call (LambdaExpr_call (LambdaExpr_init tokens) r1).2.1 r2).2.1
        = (LambdaExpr_call (LambdaExpr_init tokens) r1).2.1
    ∧ (LambdaExpr_call (LambdaExpr_call (LambdaExpr_init tokens) r1).2.1 r2).2.2 = false
    ∧ compileCount (LambdaExpr_init tokens) regs ≤ 1 := by
  refine ⟨rfl, rfl, rfl, rfl, ?_⟩
  cases regs with
  | nil => simp [compileCount]
  | cons r rest =>
      simp [compileCount, LambdaExpr_init, LambdaExpr_call, compileCount_of_some]

/-- C6: if any positional argument or any keyword-argument value handed to
the call combinator is not a string, the combinator fails with a type
error during combinator construction (the formatter generators are consumed
by the constructor call) and no builder is produced. -/
theorem C6_nonstring_argument_raises (self : List String) (args : List PyObj)
    (kwargs : List (String × PyObj))
    (h : (∃ a ∈ args, PyObj.isStr a = false) ∨ (∃ kv ∈ kwargs, PyObj.isStr kv.2 = false)) :
    LambdaExpr_callCombinator self args kwargs = .error () := by
  rcases h with h | h
  · have hA := argsFormatter_error args h
    simp [LambdaExpr_callCombinator, hA, Bind.bind, Except.bind]
  · cases hA : argsFormatter args with
    | error e =>
        cases e
        simp [LambdaExpr_callCombinator, hA, Bind.bind, Except.bind]
    | ok l =>
        have hK := kwargsFormatter_error (!args.isEmpty) kwargs h
        simp [LambdaExpr_callCombinator, hA, hK, Bind.bind, Except.bind,
          Functor.map, Except.map]

/-- C6 witness: a non-string positional argument (the integer 4 instead of
its text) fails immediately. -/
theorem C6_witness :
    LambdaExpr_callCombinator ["x"] [PyObj.nonStr "4"] [] = .error () :=
  C6_nonstring_argument_raises ["x"] [PyObj.nonStr "4"] [] (Or.inl (by decide))

/-- C7 counterexample: after the `LambdaArgs` singleton has registered the
name `*args`, constructing a placeholder with the syntactically invalid
name `*args` fails with the naming-conflict error, not the
invalid-identifier error, because the conflict check precedes the
identifier check. -/
theorem C7_counterexample :
    (LambdaArgs_new ⟨none, []⟩).2.registered = ["*args"]
    ∧ isidentifier "*args" = false
    ∧ LambdaVar_init "*args" ["*args"] = (.error .alreadyCreated, ["*args"])
    ∧ NameErr.alreadyCreated ≠ NameErr.notValidIdentifier := by
  refine ⟨by decide, by decide, ?_, by decide⟩
  simp [LambdaVar_init]

/-- C7 amended: for every name that fails identifier syntax or is a
reserved word AND is not already registered, construction fails immediately
with the invalid-identifier error and the name is not added to the
registry.  (A name that is already registered — reachable only for the
variadic marker names — raises the naming-conflict error instead, and the
registry is still unchanged.) -/
theorem C7_amended_invalid_name_rejected (name : String) (registered : List String)
    (h0 : name ∉ registered)
    (h : isidentifier name = false ∨ iskeyword name = true) :
    (LambdaVar_init name registered).1 = .error .notValidIdentifier
    ∧ (LambdaVar_init name registered).2 = registered := by
  have hb : (!(isidentifier name) || iskeyword name) = true := by
    rcases h with h | h <;> simp [h]
  constructor <;> simp [LambdaVar_init, h0, hb]

/-- C7 amended witness: the reserved word `lambda` is rejected as an
invalid identifier and never registered. -/
theorem C7_amended_witness :
    (LambdaVar_init "lambda" []).1 = .error .notValidIdentifier
    ∧ (LambdaVar_init "lambda" []).2 = [] :=
  C7_amended_invalid_name_rejected "lambda" [] (by decide) (Or.inr (by decide))

/-- C8: each variadic marker is a process-wide singleton: the first
construction creates the instance with its fixed token, caches it in the
class attribute and registers the fixed reserved name; a subsequent
construction returns the identical cached instance with the same token
sequence, without error and without modifying the registry further. -/
theorem C8_variadic_singletons (reg regK : List String) :
    (LambdaArgs_new ⟨none, reg⟩).1 = ["*args"]
    ∧ (LambdaArgs_new ⟨none, reg⟩).2.instAttr = some ["*args"]
    ∧ "*args" ∈ (LambdaArgs_new ⟨none, reg⟩).2.registered
    ∧ LambdaArgs_new ((LambdaArgs_new ⟨none, reg⟩).2)
        = (["*args"], (LambdaArgs_new ⟨none, reg⟩).2)
    ∧ (LambdaKwargs_new ⟨none, regK⟩).1 = ["**kwargs"]
    ∧ (LambdaKwargs_new ⟨none, regK⟩).2.instAttr = some ["**kwargs"]
    ∧ "**kwargs" ∈ (LambdaKwargs_new ⟨none, regK⟩).2.registered
    ∧ LambdaKwargs_new ((LambdaKwargs_new ⟨none, regK⟩).2)
        = (["**kwargs"], (LambdaKwargs_new ⟨none, regK⟩).2) := by
  refine ⟨rfl, rfl, ?_, rfl, rfl, rfl, ?_, rfl⟩ <;> simp [LambdaArgs_new, LambdaKwargs_new]

/-- C9: the divmod combinator ignores its right-hand operand entirely: the
produced builder is the fragment `divmod(`, the old tokens and `)`, it
renders accordingly, and it is independent of the right operand. -/
theorem C9_divmod_ignores_right_operand (a : List String) (b b2 : Operand) :
    __divmod__ a b = ["divmod("] ++ a ++ [")"]
    ∧ render (__divmod__ a b) = "divmod(" ++ render a ++ ")"
    ∧ __divmod__ a b = __divmod__ a b2 := by
  refine ⟨rfl, ?_, rfl⟩
  simp only [__divmod__, render_append, render_singleton]

/-- C10: rounding without a precision still emits a precision slot holding
the literal text `None`, and rounding with an integer precision emits its
decimal text in that slot. -/
theorem C10_round_emits_none_slot (a : List String) (k : Int) :
    render (__round__ a .defaultNone) = "round(" ++ render a ++ ",None)"
    ∧ render (__round__ a (.int k)) = "round(" ++ render a ++ "," ++ toString k ++ ")" := by
  constructor
  · have hdef : __round__ a .defaultNone = ["round("] ++ a ++ [","] ++ ["None"] ++ [")"] := rfl
    have h1 : (",None)" : String) = "," ++ "None" ++ ")" := by decide
    rw [hdef, h1]
    simp only [render_append, render_singleton, strAppend_assoc]
  · have hdef : __round__ a (.int k) = ["round("] ++ a ++ [","] ++ [toString k] ++ [")"] := rfl
    rw [hdef]
    simp only [render_append, render_singleton]
